import Mathlib

/-!
Shallow embedding of the earthquake_chatbot frontend core:
`src/frontend/src/types.ts`, `src/frontend/src/api.ts` (`sendMessage`),
the App component's `handleSend`, and `InputBar` send gating.
-/

namespace EarthquakeChatbot

/-- JS `String.prototype.trim()`: drop leading and trailing whitespace
(modelled with `Char.isWhitespace`), written transparently over the
character list so that it evaluates by kernel reduction. -/
def trimString (s : String) : String :=
  String.mk (((s.data.dropWhile Char.isWhitespace).reverse.dropWhile
    Char.isWhitespace).reverse)

/-- `APICallLog` from types.ts: provenance of one external data call.
JS `number | null` fields are modelled as `Option Int`. -/
structure APICallLog where
  url : String
  retrieved_at_utc : String
  result_type : String
  total_available : Option Int
  returned : Option Int
  count : Option Int
  deriving Repr, DecidableEq

/-- The closed set of evaluation failure categories from types.ts:
`'misaligned_intent' | 'ungrounded_output'`. -/
inductive EvalFailureCategory where
  | misaligned_intent
  | ungrounded_output
  deriving Repr, DecidableEq

/-- `AgentEnrichedResponse` from types.ts (the revision carrying the
evaluation fields, lines 35-45): the caller-facing enriched bundle. -/
structure AgentEnrichedResponse where
  request_id : String
  title : String
  parsed_intent : String
  assumptions : List String
  api_calls : List APICallLog
  answer_text : String
  eval_score : Int
  eval_passed : Bool
  eval_failure_category : Option EvalFailureCategory
  deriving Repr, DecidableEq

/-- Message roles used by the App component (`'human' | 'assistant'`). -/
inductive Role where
  | human
  | assistant
  deriving Repr, DecidableEq

/-- `Message` from types.ts. `Date` timestamps are modelled as `Nat`;
the optional `enriched` field as `Option AgentEnrichedResponse`. -/
structure Message where
  id : String
  role : Role
  content : String
  timestamp : Nat
  enriched : Option AgentEnrichedResponse
  deriving Repr, DecidableEq

/-- The `content` field of a streamed snapshot message is `unknown` in the
source; `sendMessage` only cares whether it is a string
(`typeof msg.content === 'string'`). -/
inductive ContentValue where
  | str (s : String)
  | nonString
  deriving Repr, DecidableEq

/-- One element of the final state's `messages` array as read by
`sendMessage` (api.ts lines 58-62): optional `type`, `role`, `content`. -/
structure SnapshotMessage where
  type : Option String
  role : Option String
  content : Option ContentValue
  deriving Repr, DecidableEq

/-- A `values` state snapshot as read by `sendMessage`: the fields
`action`, `enriched_response` and `messages` it accesses, plus `extra`
standing for all other keys of the `Record<string, unknown>` state. -/
structure StateSnapshot where
  action : Option String
  enriched_response : Option AgentEnrichedResponse
  messages : Option (List SnapshotMessage)
  extra : List (String × String)
  deriving Repr, DecidableEq

/-- One event of the run stream: a `values` event carries a full state
snapshot (possibly null); anything else is ignored by `sendMessage`. -/
inductive StreamEvent where
  | values (data : Option StateSnapshot)
  | other
  deriving Repr, DecidableEq

/-- Whether a stream event is a `values` event. -/
def isValuesEvent : StreamEvent → Bool
  | .values _ => true
  | .other => false

/-- api.ts lines 30-36: `finalState` starts null and is overwritten by the
data of every `values` event, so it ends as the data of the last one. -/
def finalValuesState (events : List StreamEvent) : Option StateSnapshot :=
  events.foldl (fun acc e =>
    match e with
    | .values d => d
    | .other => acc) none

/-- The fixed fallback content of `sendMessage`. -/
def noResponseContent : String := "The agent returned no response."

/-- api.ts lines 67-71: the condition under which the backward scan accepts
a message: `(msg.type === 'ai' || msg.role === 'assistant') &&
typeof msg.content === 'string' && msg.content.trim().length > 0`. -/
def isUsableAssistantMessage (m : SnapshotMessage) : Bool :=
  (m.type == some "ai" || m.role == some "assistant") &&
    match m.content with
    | some (.str s) => decide (0 < (trimString s).length)
    | _ => false

/-- The string content of a snapshot message (empty when not a string). -/
def messageText (m : SnapshotMessage) : String :=
  match m.content with
  | some (.str s) => s
  | _ => ""

/-- api.ts lines 64-75: scan `messages` from the last element down and take
the content of the first acceptable one; `''` when none is found. -/
def lastAssistantText (msgs : List SnapshotMessage) : String :=
  match msgs.reverse.find? isUsableAssistantMessage with
  | some m => messageText m
  | none => ""

/-- `SendMessageResult` from api.ts lines 14-17. -/
structure SendMessageResult where
  content : String
  enriched : Option AgentEnrichedResponse
  deriving Repr, DecidableEq

/-- api.ts lines 56-77: the supervisor-only path. `finalState['messages']
?? []`, backward scan, then `content.trim() || 'The agent returned no
response.'` with `enriched: null`. -/
def messagesBranch (st : StateSnapshot) : SendMessageResult :=
  let content := lastAssistantText (st.messages.getD [])
  { content :=
      if trimString content = "" then noResponseContent else trimString content,
    enriched := none }

/-- api.ts lines 38-77: what `sendMessage` returns given the collected
final state. Null final state yields the fallback; a truthy
`enriched_response` under `action === 'build_execute_query'` is returned
as is with its `answer_text` as content; otherwise the messages branch. -/
def resultFromFinalState (finalState : Option StateSnapshot) : SendMessageResult :=
  match finalState with
  | none => { content := noResponseContent, enriched := none }
  | some st =>
    match st.action, st.enriched_response with
    | some a, some enriched =>
      if a = "build_execute_query" then
        { content := enriched.answer_text, enriched := some enriched }
      else messagesBranch st
    | _, _ => messagesBranch st

/-- api.ts lines 19-78: `sendMessage` as a function of the event stream. -/
def sendMessage (events : List StreamEvent) : SendMessageResult :=
  resultFromFinalState (finalValuesState events)

/-- The App component's state hooks: `threadId`, `messages`, `inputValue`,
`isLoading`, `error`. -/
structure AppState where
  threadId : Option String
  messages : List Message
  inputValue : String
  isLoading : Bool
  error : Option String
  deriving Repr, DecidableEq

/-- How the awaited `sendMessage` call inside `handleSend` ends: a result,
or a thrown error whose message string feeds the catch branch. -/
inductive SendOutcome where
  | ok (result : SendMessageResult)
  | thrown (message : String)
  deriving Repr, DecidableEq

/-- `handleSend` from the App component (api.ts related doc lines 114-148):
guard `(!inputValue.trim() || isLoading || !threadId) return`, append the
human message, clear input, set loading, then on success append the
assistant message carrying `sendMessage`'s content and enriched value, on
a thrown error set the error state instead; `finally` clears loading.
`crypto.randomUUID()` and `new Date()` are passed in as `userId`,
`assistantId`, `t1`, `t2`. -/
def handleSend (st : AppState) (userId assistantId : String) (t1 t2 : Nat)
    (outcome : SendOutcome) : AppState :=
  if trimString st.inputValue = "" ∨ st.isLoading = true ∨ st.threadId = none then
    st
  else
    let userMessage : Message :=
      { id := userId, role := .human, content := trimString st.inputValue,
        timestamp := t1, enriched := none }
    let afterUser : AppState :=
      { st with
        messages := st.messages ++ [userMessage],
        inputValue := "",
        isLoading := true,
        error := none }
    match outcome with
    | .ok r =>
      let assistantMessage : Message :=
        { id := assistantId, role := .assistant, content := r.content,
          timestamp := t2, enriched := r.enriched }
      { afterUser with
        messages := afterUser.messages ++ [assistantMessage],
        isLoading := false }
    | .thrown m =>
      { afterUser with error := some m, isLoading := false }

/-- A keyboard event as InputBar.tsx's `handleKeyDown` reads it. -/
structure KeyEvent where
  key : String
  shiftKey : Bool
  deriving Repr, DecidableEq

/-- InputBar.tsx lines 13-20: `handleKeyDown` calls `onSend()` exactly when
the key is Enter without Shift, `isLoading` is false and the trimmed value
is non-empty (truthy). -/
def enterFiresSend (value : String) (isLoading : Bool) (e : KeyEvent) : Bool :=
  e.key == "Enter" && !e.shiftKey && (!isLoading && !(trimString value == ""))

/-- InputBar.tsx line 29: `canSend`, the send button's enabled state. -/
def canSend (value : String) (isLoading : Bool) : Bool :=
  !isLoading && decide (0 < (trimString value).length)

/-! ### Supporting lemmas -/

/-- Whenever the `action === 'build_execute_query' && enrichedRaw` test
fails, `sendMessage` takes the messages branch. -/
theorem resultFromFinalState_message_path (st : StateSnapshot)
    (h : st.action ≠ some "build_execute_query" ∨ st.enriched_response = none) :
    resultFromFinalState (some st) = messagesBranch st := by
  obtain ⟨a, e, msgs, x⟩ := st
  dsimp only at h
  rcases a with _ | a
  · rcases e with _ | e <;> rfl
  · rcases e with _ | e
    · rfl
    · have hne : a ≠ "build_execute_query" := by
        rcases h with h | h
        · simpa using h
        · simp at h
      simp only [resultFromFinalState]
      rw [if_neg hne]

/-- Folding the `values`-collection step over events that contain no
`values` event leaves the accumulator unchanged. -/
theorem foldl_values_step_of_no_values (post : List StreamEvent)
    (acc : Option StateSnapshot) (h : ∀ e ∈ post, isValuesEvent e = false) :
    post.foldl (fun acc e =>
      match e with
      | StreamEvent.values d => d
      | StreamEvent.other => acc) acc = acc := by
  induction post generalizing acc with
  | nil => rfl
  | cons e rest ih =>
    cases e with
    | values d =>
      exact absurd (h _ (List.mem_cons_self _ _)) (by simp [isValuesEvent])
    | other =>
      exact ih acc fun x hx => h x (List.mem_cons_of_mem _ hx)

/-- `find?` skips a block of elements that all fail the predicate and
returns the first element that satisfies it. -/
theorem find_skip_block {α : Type} (p : α → Bool) (l rest : List α) (m : α)
    (hl : ∀ x ∈ l, p x = false) (hm : p m = true) :
    (l ++ m :: rest).find? p = some m := by
  induction l with
  | nil => exact List.find?_cons_of_pos _ hm
  | cons a t ih =>
    have ha : p a = false := hl a (List.mem_cons_self _ _)
    have ht : ∀ x ∈ t, p x = false := fun x hx => hl x (List.mem_cons_of_mem _ hx)
    rw [List.cons_append, List.find?_cons_of_neg _ (by simp [ha])]
    exact ih ht

/-- Scanning the reversed list finds the last element satisfying the
predicate: everything after it fails, so its reversed block is skipped. -/
theorem find_reverse_last {α : Type} (p : α → Bool) (l₁ l₂ : List α) (m : α)
    (hm : p m = true) (h2 : ∀ x ∈ l₂, p x = false) :
    ((l₁ ++ m :: l₂).reverse).find? p = some m := by
  have : (l₁ ++ m :: l₂).reverse = l₂.reverse ++ m :: l₁.reverse := by
    simp
  rw [this]
  exact find_skip_block p l₂.reverse l₁.reverse m
    (fun x hx => h2 x (List.mem_reverse.mp hx)) hm

/-- Characterization of the backward-scan acceptance test of api.ts
lines 67-71. -/
theorem isUsableAssistantMessage_iff (m : SnapshotMessage) :
    isUsableAssistantMessage m = true ↔
      ((m.type = some "ai" ∨ m.role = some "assistant") ∧
        ∃ s, m.content = some (ContentValue.str s) ∧
          0 < (trimString s).length) := by
  obtain ⟨t, r, c⟩ := m
  unfold isUsableAssistantMessage
  rcases c with _ | cv
  · simp
  · cases cv with
    | str s => simp [Bool.and_eq_true, Bool.or_eq_true]
    | nonString => simp

/-- A string with positive trimmed length has non-empty trim. -/
theorem trimString_ne_empty {s : String} (h : 0 < (trimString s).length) :
    trimString s ≠ "" := by
  intro he
  rw [he] at h
  simp at h

/-- `messagesBranch` written without the intermediate binding. -/
theorem messagesBranch_eq (st : StateSnapshot) :
    messagesBranch st =
      { content :=
          if trimString (lastAssistantText (st.messages.getD [])) = ""
          then noResponseContent
          else trimString (lastAssistantText (st.messages.getD [])),
        enriched := none } := rfl

/-- The backward scan's text when the scan finds a message. -/
theorem lastAssistantText_of_find (msgs : List SnapshotMessage)
    (m : SnapshotMessage)
    (h : msgs.reverse.find? isUsableAssistantMessage = some m) :
    lastAssistantText msgs = messageText m := by
  unfold lastAssistantText
  rw [h]

/-- The backward scan's text when the scan finds nothing. -/
theorem lastAssistantText_of_find_none (msgs : List SnapshotMessage)
    (h : msgs.reverse.find? isUsableAssistantMessage = none) :
    lastAssistantText msgs = "" := by
  unfold lastAssistantText
  rw [h]

/-! ### Sample values for concrete evaluations -/

/-- A sample count-shaped API call log entry. -/
def sampleCall : APICallLog :=
  { url := "https://example.org/query",
    retrieved_at_utc := "2026-01-01T00:00:00Z",
    result_type := "count",
    total_available := none,
    returned := none,
    count := some 3 }

/-- A sample enriched bundle. -/
def sampleEnriched : AgentEnrichedResponse :=
  { request_id := "req-1",
    title := "M6 count",
    parsed_intent := "count quakes",
    assumptions := ["global scope"],
    api_calls := [sampleCall],
    answer_text := "There were 3 earthquakes.",
    eval_score := 92,
    eval_passed := true,
    eval_failure_category := none }

/-- A sample message list ending in an assistant message with padding. -/
def glossaryMessages : List SnapshotMessage :=
  [{ type := some "human", role := none,
      content := some (ContentValue.str "what is magnitude") },
    { type := some "ai", role := none,
      content := some (ContentValue.str " A measure of energy. ") }]

/-- A glossary-path final snapshot still carrying a stale enriched bundle. -/
def glossarySnap : StateSnapshot :=
  { action := some "show_glossary",
    enriched_response := some sampleEnriched,
    messages := some glossaryMessages,
    extra := [("thread_id", "t-1")] }

/-- A full-pipeline final snapshot with a fresh enriched bundle. -/
def querySnap : StateSnapshot :=
  { action := some "build_execute_query",
    enriched_response := some sampleEnriched,
    messages := some glossaryMessages,
    extra := [] }

/-- A full-pipeline final snapshot whose enriched bundle is missing. -/
def queryNoEnrichedSnap : StateSnapshot :=
  { action := some "build_execute_query",
    enriched_response := none,
    messages := some glossaryMessages,
    extra := [] }

/-! ### Claim theorems -/

/-- C1: for every final snapshot whose action is not `build_execute_query`,
`sendMessage` returns `enriched = null`, takes its content from the latest
assistant-authored message (the messages branch), and ignores any stored
`enriched_response`: the result is unchanged when that field is cleared. -/
theorem sendMessage_non_query_ignores_stale_enriched (st : StateSnapshot)
    (h : st.action ≠ some "build_execute_query") :
    resultFromFinalState (some st) = messagesBranch st ∧
    (resultFromFinalState (some st)).enriched = none ∧
    resultFromFinalState (some st) =
      resultFromFinalState (some { st with enriched_response := none }) ∧
    ∀ events, finalValuesState events = some st →
      sendMessage events = messagesBranch st := by
  have h1 := resultFromFinalState_message_path st (Or.inl h)
  have h2 := resultFromFinalState_message_path
    { st with enriched_response := none } (Or.inr rfl)
  refine ⟨h1, by rw [h1]; rfl, ?_, ?_⟩
  · rw [h1, h2]; exact rfl
  · intro events hev
    unfold sendMessage
    rw [hev, h1]

/-- Witness for C1 at a concrete glossary-path snapshot that carries a
stale enriched bundle. -/
theorem sendMessage_non_query_ignores_stale_enriched_witness :
    glossarySnap.action ≠ some "build_execute_query" ∧
    resultFromFinalState (some glossarySnap) = messagesBranch glossarySnap ∧
    (resultFromFinalState (some glossarySnap)).enriched = none ∧
    (resultFromFinalState (some glossarySnap)).content =
      "A measure of energy." := by
  have h := sendMessage_non_query_ignores_stale_enriched glossarySnap
    (by decide)
  exact ⟨by decide, h.1, h.2.1, by rw [h.1]; decide⟩

/-- C2: the result of `sendMessage` is a function of the last `values`
event only — whatever snapshots were emitted earlier in the stream, the
result equals `resultFromFinalState` of the last `values` payload. -/
theorem sendMessage_last_snapshot_wins (pre post : List StreamEvent)
    (d : Option StateSnapshot) (h : ∀ e ∈ post, isValuesEvent e = false) :
    sendMessage (pre ++ StreamEvent.values d :: post) =
      resultFromFinalState d := by
  unfold sendMessage finalValuesState
  rw [List.foldl_append, List.foldl_cons]
  exact congrArg resultFromFinalState (foldl_values_step_of_no_values post d h)

/-- Witness for C2: an intermediate glossary snapshot followed by a final
query snapshot; the result is that of the final snapshot alone. -/
theorem sendMessage_last_snapshot_wins_witness :
    (∀ e ∈ [StreamEvent.other], isValuesEvent e = false) ∧
    sendMessage [StreamEvent.values (some glossarySnap), StreamEvent.other,
        StreamEvent.values (some querySnap), StreamEvent.other] =
      resultFromFinalState (some querySnap) :=
  ⟨by decide, sendMessage_last_snapshot_wins
    [StreamEvent.values (some glossarySnap), StreamEvent.other]
    [StreamEvent.other] (some querySnap) (by decide)⟩

/-- C3: a final snapshot with action `build_execute_query` and a non-null
`enriched_response` makes `sendMessage` return that bundle unchanged as
`enriched` and its `answer_text` as the content. -/
theorem sendMessage_query_returns_enriched (st : StateSnapshot)
    (e : AgentEnrichedResponse) (ha : st.action = some "build_execute_query")
    (he : st.enriched_response = some e) :
    resultFromFinalState (some st) =
      { content := e.answer_text, enriched := some e } := by
  obtain ⟨a, er, m, x⟩ := st
  dsimp only at ha he
  subst ha he
  simp [resultFromFinalState]

/-- Witness for C3 at a concrete full-pipeline snapshot. -/
theorem sendMessage_query_returns_enriched_witness :
    querySnap.action = some "build_execute_query" ∧
    querySnap.enriched_response = some sampleEnriched ∧
    resultFromFinalState (some querySnap) =
      { content := sampleEnriched.answer_text,
        enriched := some sampleEnriched } :=
  ⟨rfl, rfl, sendMessage_query_returns_enriched querySnap sampleEnriched rfl rfl⟩

/-- C9: when the final snapshot's action is `build_execute_query` but the
`enriched_response` is null, `sendMessage` falls back to the
message-extraction branch and returns `enriched = null`. -/
theorem sendMessage_query_missing_enriched_falls_back (st : StateSnapshot)
    (_ha : st.action = some "build_execute_query")
    (he : st.enriched_response = none) :
    resultFromFinalState (some st) = messagesBranch st ∧
    (resultFromFinalState (some st)).enriched = none := by
  have h1 := resultFromFinalState_message_path st (Or.inr he)
  exact ⟨h1, by rw [h1]; rfl⟩

/-- Witness for C9 at a concrete query snapshot missing its bundle. -/
theorem sendMessage_query_missing_enriched_falls_back_witness :
    queryNoEnrichedSnap.action = some "build_execute_query" ∧
    queryNoEnrichedSnap.enriched_response = none ∧
    resultFromFinalState (some queryNoEnrichedSnap) =
      messagesBranch queryNoEnrichedSnap ∧
    (resultFromFinalState (some queryNoEnrichedSnap)).enriched = none := by
  have h := sendMessage_query_missing_enriched_falls_back queryNoEnrichedSnap
    rfl rfl
  exact ⟨rfl, rfl, h.1, h.2⟩

/-- The tuple of contract fields read off an `AgentEnrichedResponse`. -/
def enrichedFields (e : AgentEnrichedResponse) :
    String × String × String × List String × List APICallLog × String ×
      Int × Bool × Option EvalFailureCategory :=
  (e.request_id, e.title, e.parsed_intent, e.assumptions, e.api_calls,
    e.answer_text, e.eval_score, e.eval_passed, e.eval_failure_category)

/-- C4: the caller-facing `AgentEnrichedResponse` carries exactly the nine
contract fields with their contract types — reading them off is a
bijection onto the corresponding tuple type — and the failure category is
drawn from the closed set `misaligned_intent`/`ungrounded_output`. -/
theorem agentEnrichedResponse_exact_fields :
    Function.Bijective enrichedFields ∧
      ∀ c : EvalFailureCategory,
        c = EvalFailureCategory.misaligned_intent ∨
          c = EvalFailureCategory.ungrounded_output := by
  refine ⟨⟨?_, ?_⟩, ?_⟩
  · intro a b h
    obtain ⟨a1, a2, a3, a4, a5, a6, a7, a8, a9⟩ := a
    obtain ⟨b1, b2, b3, b4, b5, b6, b7, b8, b9⟩ := b
    simp only [enrichedFields, Prod.mk.injEq] at h
    obtain ⟨e1, e2, e3, e4, e5, e6, e7, e8, e9⟩ := h
    subst e1 e2 e3 e4 e5 e6 e7 e8 e9
    rfl
  · rintro ⟨r, t, p, asm, api, ans, sc, ps, fc⟩
    exact ⟨⟨r, t, p, asm, api, ans, sc, ps, fc⟩, rfl⟩
  · intro c
    cases c
    · exact Or.inl rfl
    · exact Or.inr rfl

/-- C8: the result of `sendMessage` depends only on the `action`,
`enriched_response` and `messages` fields of the final snapshot — two
snapshots agreeing on those three fields yield identical results,
whatever the other state fields hold. -/
theorem sendMessage_depends_only_on_schema_fields (s1 s2 : StateSnapshot)
    (ha : s1.action = s2.action)
    (he : s1.enriched_response = s2.enriched_response)
    (hm : s1.messages = s2.messages) :
    resultFromFinalState (some s1) = resultFromFinalState (some s2) := by
  obtain ⟨a1, e1, m1, x1⟩ := s1
  obtain ⟨a2, e2, m2, x2⟩ := s2
  dsimp only at ha he hm
  subst ha he hm
  rcases a1 with _ | a <;> rcases e1 with _ | e <;>
    simp [resultFromFinalState, messagesBranch]

/-- Witness for C8: two final snapshots equal on the three schema fields
but with different remaining state produce the same result. -/
theorem sendMessage_depends_only_on_schema_fields_witness :
    (glossarySnap.action =
      (StateSnapshot.mk (some "show_glossary") (some sampleEnriched)
        (some glossaryMessages) [("internal_scratch", "xyz")]).action) ∧
    resultFromFinalState (some glossarySnap) =
      resultFromFinalState (some (StateSnapshot.mk (some "show_glossary")
        (some sampleEnriched) (some glossaryMessages)
        [("internal_scratch", "xyz")])) :=
  ⟨rfl, sendMessage_depends_only_on_schema_fields glossarySnap
    (StateSnapshot.mk (some "show_glossary") (some sampleEnriched)
      (some glossaryMessages) [("internal_scratch", "xyz")]) rfl rfl rfl⟩

/-- An App state that is ready to send: non-blank input, not loading, a
thread id, and one previously recorded message. -/
def readyState : AppState :=
  { threadId := some "t-1",
    messages := [Message.mk "m0" Role.assistant "hello" 0 none],
    inputValue := " hi ",
    isLoading := false,
    error := none }

/-- An App state with a Turn in flight. -/
def loadingState : AppState :=
  { threadId := some "t-1",
    messages := [],
    inputValue := "next question",
    isLoading := true,
    error := none }

/-- C5: when the awaited `sendMessage` throws, `handleSend` appends no
assistant message and attaches no enriched bundle — the message list gains
only the human message, every prior message is untouched — and the failure
is surfaced through the error state. -/
theorem handleSend_throw_preserves_messages (st : AppState)
    (tid uid aid : String) (t1 t2 : Nat) (emsg : String)
    (hin : trimString st.inputValue ≠ "") (hload : st.isLoading = false)
    (htid : st.threadId = some tid) :
    (handleSend st uid aid t1 t2 (SendOutcome.thrown emsg)).messages =
      st.messages ++
        [Message.mk uid Role.human (trimString st.inputValue) t1 none] ∧
    (handleSend st uid aid t1 t2 (SendOutcome.thrown emsg)).error =
      some emsg ∧
    (handleSend st uid aid t1 t2 (SendOutcome.thrown emsg)).isLoading =
      false ∧
    ∀ m ∈ (handleSend st uid aid t1 t2 (SendOutcome.thrown emsg)).messages,
      m ∈ st.messages ∨ (m.role = Role.human ∧ m.enriched = none) := by
  have hguard : ¬(trimString st.inputValue = "" ∨ st.isLoading = true ∨
      st.threadId = none) := by
    simp [hin, hload, htid]
  unfold handleSend
  rw [if_neg hguard]
  refine ⟨rfl, rfl, rfl, ?_⟩
  intro m hm
  dsimp only at hm
  rcases List.mem_append.mp hm with h | h
  · exact Or.inl h
  · have hme : m = Message.mk uid Role.human (trimString st.inputValue)
        t1 none := by
      simpa using h
    subst hme
    exact Or.inr ⟨rfl, rfl⟩

/-- Witness for C5 at a concrete ready state and thrown error. -/
theorem handleSend_throw_preserves_messages_witness :
    trimString readyState.inputValue ≠ "" ∧
    (handleSend readyState "u1" "a1" 1 2
        (SendOutcome.thrown "network down")).messages =
      readyState.messages ++
        [Message.mk "u1" Role.human (trimString readyState.inputValue)
          1 none] ∧
    (handleSend readyState "u1" "a1" 1 2
        (SendOutcome.thrown "network down")).error = some "network down" := by
  have h := handleSend_throw_preserves_messages readyState "t-1" "u1" "a1"
    1 2 "network down" (by decide) rfl rfl
  exact ⟨by decide, h.1, h.2.1⟩

/-- C6: while a Turn is in flight (`isLoading` true) no new Turn can start:
`handleSend` returns the state unchanged, Enter does not fire `onSend`,
and the send button is disabled. -/
theorem no_new_turn_while_loading (st : AppState) (uid aid : String)
    (t1 t2 : Nat) (outcome : SendOutcome) (v : String) (e : KeyEvent)
    (h : st.isLoading = true) :
    handleSend st uid aid t1 t2 outcome = st ∧
    enterFiresSend v true e = false ∧
    canSend v true = false := by
  refine ⟨?_, ?_, ?_⟩
  · unfold handleSend
    rw [if_pos (Or.inr (Or.inl h))]
  · simp [enterFiresSend]
  · simp [canSend]

/-- Witness for C6 at a concrete loading state, pending outcome, Enter
keypress and non-blank input. -/
theorem no_new_turn_while_loading_witness :
    loadingState.isLoading = true ∧
    handleSend loadingState "u2" "a2" 3 4
        (SendOutcome.ok (SendMessageResult.mk "late" none)) = loadingState ∧
    enterFiresSend "hello" true (KeyEvent.mk "Enter" false) = false ∧
    canSend "hello" true = false := by
  have h := no_new_turn_while_loading loadingState "u2" "a2" 3 4
    (SendOutcome.ok (SendMessageResult.mk "late" none)) "hello"
    (KeyEvent.mk "Enter" false) rfl
  exact ⟨rfl, h.1, h.2.1, h.2.2⟩

/-- C7: a Turn that completes appends exactly two entries at the end of
the message list — the human message then its assistant message — and
leaves every previously recorded message in place. -/
theorem handleSend_ok_appends_two (st : AppState) (tid uid aid : String)
    (t1 t2 : Nat) (r : SendMessageResult)
    (hin : trimString st.inputValue ≠ "") (hload : st.isLoading = false)
    (htid : st.threadId = some tid) :
    (handleSend st uid aid t1 t2 (SendOutcome.ok r)).messages =
      st.messages ++
        [Message.mk uid Role.human (trimString st.inputValue) t1 none,
          Message.mk aid Role.assistant r.content t2 r.enriched] := by
  have hguard : ¬(trimString st.inputValue = "" ∨ st.isLoading = true ∨
      st.threadId = none) := by
    simp [hin, hload, htid]
  unfold handleSend
  rw [if_neg hguard]
  dsimp only
  rw [List.append_assoc]
  rfl

/-- Witness for C7 at a concrete ready state and successful result. -/
theorem handleSend_ok_appends_two_witness :
    trimString readyState.inputValue ≠ "" ∧
    (handleSend readyState "u3" "a3" 5 6
        (SendOutcome.ok (SendMessageResult.mk "the answer"
          (some sampleEnriched)))).messages =
      readyState.messages ++
        [Message.mk "u3" Role.human "hi" 5 none,
          Message.mk "a3" Role.assistant "the answer" 6
            (some sampleEnriched)] := by
  have h := handleSend_ok_appends_two readyState "t-1" "u3" "a3" 5 6
    (SendMessageResult.mk "the answer" (some sampleEnriched))
    (by decide) rfl rfl
  refine ⟨by decide, ?_⟩
  rw [h]
  decide

/-- A message list mixing human, blank and non-string content entries. -/
def mixedMessages : List SnapshotMessage :=
  [SnapshotMessage.mk (some "ai") none (some (ContentValue.str "first answer")),
    SnapshotMessage.mk (some "human") none (some (ContentValue.str "q2")),
    SnapshotMessage.mk none (some "assistant")
      (some (ContentValue.str " second ")),
    SnapshotMessage.mk (some "ai") none (some (ContentValue.str "   ")),
    SnapshotMessage.mk (some "ai") none none]

/-- A direct-answer final snapshot over `mixedMessages`. -/
def mixedSnap : StateSnapshot :=
  { action := some "answer_question",
    enriched_response := none,
    messages := some mixedMessages,
    extra := [] }

/-- C10: on the message-extraction path, `sendMessage` selects the most
recent message whose type is `ai` or role is `assistant` and whose content
is a string with non-empty trimmed text — every later message fails that
test, so blank assistant messages and human messages are skipped — and
when the stream yields no snapshot or no such message exists it returns
the fixed fallback content with `enriched = null`. -/
theorem sendMessage_message_extraction (st : StateSnapshot)
    (msgs : List SnapshotMessage)
    (hpath : st.action ≠ some "build_execute_query" ∨
      st.enriched_response = none)
    (hmsgs : st.messages = some msgs) :
    resultFromFinalState none =
      { content := noResponseContent, enriched := none } ∧
    ((∀ m ∈ msgs, isUsableAssistantMessage m = false) →
      resultFromFinalState (some st) =
        { content := noResponseContent, enriched := none }) ∧
    ∀ l₁ m l₂, msgs = l₁ ++ m :: l₂ →
      isUsableAssistantMessage m = true →
      (∀ x ∈ l₂, isUsableAssistantMessage x = false) →
      resultFromFinalState (some st) =
        { content := trimString (messageText m), enriched := none } ∧
      (m.type = some "ai" ∨ m.role = some "assistant") ∧
      ∃ s, m.content = some (ContentValue.str s) ∧
        0 < (trimString s).length := by
  have hbr := resultFromFinalState_message_path st hpath
  refine ⟨rfl, ?_, ?_⟩
  · intro hnone
    have hfind : msgs.reverse.find? isUsableAssistantMessage = none := by
      rw [List.find?_eq_none]
      intro x hx
      simp [hnone x (List.mem_reverse.mp hx)]
    rw [hbr, messagesBranch_eq, hmsgs, Option.getD_some,
      lastAssistantText_of_find_none msgs hfind, if_pos (by decide)]
  · intro l₁ m l₂ hdecomp hm hskip
    have hfind : msgs.reverse.find? isUsableAssistantMessage = some m := by
      rw [hdecomp]
      exact find_reverse_last _ l₁ l₂ m hm hskip
    obtain ⟨hrole, s, hcontent, hslen⟩ :=
      (isUsableAssistantMessage_iff m).mp hm
    have htext : messageText m = s := by
      unfold messageText
      rw [hcontent]
    have hne : trimString (messageText m) ≠ "" := by
      rw [htext]
      exact trimString_ne_empty hslen
    refine ⟨?_, hrole, s, hcontent, hslen⟩
    rw [hbr, messagesBranch_eq, hmsgs, Option.getD_some,
      lastAssistantText_of_find msgs m hfind, if_neg hne]

/-- Witness for C10: over `mixedSnap` the scan picks the padded
role-assistant message, skipping the blank and non-string entries after
it, and returns its trimmed text. -/
theorem sendMessage_message_extraction_witness :
    isUsableAssistantMessage (SnapshotMessage.mk none (some "assistant")
      (some (ContentValue.str " second "))) = true ∧
    resultFromFinalState (some mixedSnap) =
      { content := "second", enriched := none } := by
  have h := sendMessage_message_extraction mixedSnap mixedMessages
    (Or.inr rfl) rfl
  have h3 := h.2.2
    [SnapshotMessage.mk (some "ai") none (some (ContentValue.str "first answer")),
      SnapshotMessage.mk (some "human") none (some (ContentValue.str "q2"))]
    (SnapshotMessage.mk none (some "assistant")
      (some (ContentValue.str " second ")))
    [SnapshotMessage.mk (some "ai") none (some (ContentValue.str "   ")),
      SnapshotMessage.mk (some "ai") none none]
    (by decide) (by decide) (by decide)
  exact ⟨by decide, h3.1.trans (by decide)⟩

end EarthquakeChatbot
